import Mathlib

/-!
Shallow embedding of the `TimeLock` Stylus contract (src/src/lib.rs).

Modelling conventions:
* `Address` values and `U256` values are `Nat`; the zero address
  (`Address::default()`, the "no owner" sentinel) is `0`.
* Byte strings (`Bytes`, the bytes of the `String` argument `func`, and
  `bytes32` transaction ids) are `List Nat`.
* The external Keccak-256 hash (from the `sha3` crate) is a parameter of the
  model, `Env.keccak : List Nat → List Nat`: the contract's code is
  independent of the concrete digest function, so every theorem quantifies
  over it.  The ABI encoding fed to the hash (`abi_encode_sequence`) is
  implemented concretely, following the canonical Solidity ABI encoding of
  the tuple `(address, uint256, bytes, bytes, uint256)` used in
  `get_tx_id`.
* The host environment (`msg::sender()`, `block::timestamp()`, the outcome
  of the outbound `call`) is an explicit `Env` record.  `block::timestamp()`
  is a `u64` in the source, so timing theorems carry the faithfulness bound
  `env.timestamp < 2 ^ 64`; `U256` arithmetic on such values cannot
  overflow, so plain `Nat` arithmetic is exact.
* Each contract method is a state transformer returning an `Outcome`:
  the `Result` value, the storage state as left by the method body, the
  events emitted via `evm::log`, and the outbound calls dispatched.  Error
  returns carry the state exactly as the method body left it (host-level
  revert semantics are an external collaborator, not part of this core).
* The success of an outbound call (`Env.callOk`) may depend on the storage
  state at the instant of dispatch; this is how re-entrancy-relevant
  ordering (checks-effects-interactions) is made observable.
-/

/-- A transaction descriptor: the five parameters taken by `queue`,
`execute`, `cancel` and `get_tx_id`. -/
structure Descriptor where
  target : Nat
  value : Nat
  func : List Nat
  data : List Nat
  timestamp : Nat
deriving DecidableEq, Repr

/-- Side conditions carried by the Rust types: `target` is an `Address`
(160 bits), `value` and `timestamp` are `U256`, and the two byte strings
have representable lengths. -/
def ValidDescriptor (d : Descriptor) : Prop :=
  d.target < 2 ^ 160 ∧ d.value < 2 ^ 256 ∧ d.timestamp < 2 ^ 256 ∧
    d.func.length < 2 ^ 255 ∧ d.data.length < 2 ^ 255

instance (d : Descriptor) : Decidable (ValidDescriptor d) := by
  unfold ValidDescriptor; infer_instance

/-- Big-endian base-256 digits of `n`, padded/truncated to width `w`
(the ABI word encoding of an unsigned integer). -/
def padBE : Nat → Nat → List Nat
  | 0, _ => []
  | w + 1, n => padBE w (n / 256) ++ [n % 256]

/-- A 32-byte ABI word. -/
def pad32 (n : Nat) : List Nat := padBE 32 n

/-- ABI encoding of a dynamic `bytes` value: a 32-byte length word, the
bytes themselves, then zero padding up to a multiple of 32 bytes. -/
def encBytes (b : List Nat) : List Nat :=
  pad32 b.length ++ (b ++ List.replicate ((32 - b.length % 32) % 32) 0)

/-- `TxIdHashType::abi_encode_sequence` for the tuple
`(address, uint256, bytes, bytes, uint256)`: five 32-byte head words (the
two dynamic fields contribute their tail offsets, 160 and
`160 + |encBytes func|`), followed by the two dynamic tails. -/
def abi_encode_sequence (target value : Nat) (func data : List Nat)
    (timestamp : Nat) : List Nat :=
  pad32 target ++ (pad32 value ++ (pad32 160 ++
    (pad32 (160 + (encBytes func).length) ++ (pad32 timestamp ++
      (encBytes func ++ encBytes data)))))

/-- `TimeLock::get_tx_id`: Keccak-256 of the ABI encoding of the five
parameters (the hash itself is the model parameter `k`). -/
def get_tx_id (k : List Nat → List Nat) (target value : Nat)
    (func data : List Nat) (timestamp : Nat) : List Nat :=
  k (abi_encode_sequence target value func data timestamp)

/-- The transaction id of a descriptor. -/
def txIdOf (k : List Nat → List Nat) (d : Descriptor) : List Nat :=
  get_tx_id k d.target d.value d.func d.data d.timestamp

/-- Contract storage: the `owner` address slot and the
`mapping(bytes32 => bool) queued` (default `false`). -/
structure TimeLock where
  owner : Nat
  queued : List Nat → Bool

/-- Point update of the `queued` mapping (`self.queued.setter(tx_id).set`). -/
def setQueued (s : TimeLock) (id : List Nat) (b : Bool) : TimeLock :=
  { s with queued := fun x => if x = id then b else s.queued x }

/-- The errors of `TimeLockError`. -/
inductive TimeLockError where
  | AlreadyInitialized
  | NotOwnerError
  | AlreadyQueuedError (txId : List Nat)
  | TimestampNotInRangeError (blockTimestamp timestamp : Nat)
  | NotQueuedError (txId : List Nat)
  | TimestampNotPassedError (blockTimestamp timestamp : Nat)
  | TimestampExpiredError (blockTimestamp expiresAt : Nat)
  | TxFailedError
deriving DecidableEq, Repr

/-- The events loggable via `evm::log`. -/
inductive Event where
  | Queue (txId : List Nat) (target value : Nat) (func data : List Nat)
      (timestamp : Nat)
  | Execute (txId : List Nat) (target value : Nat) (func data : List Nat)
      (timestamp : Nat)
  | Cancel (txId : List Nat)
deriving DecidableEq, Repr

/-- An outbound call dispatched through the Stylus `call` port. -/
structure OutCall where
  target : Nat
  value : Nat
  calldata : List Nat
deriving DecidableEq, Repr

/-- Host environment of one invocation: the Keccak-256 function, the
caller (`msg::sender()`), the clock (`block::timestamp()`, a `u64`), and
the success predicate of outbound calls.  `callOk` sees the storage state
current at the instant of dispatch, which is how the model observes the
order of state mutation versus external interaction. -/
structure Env where
  keccak : List Nat → List Nat
  sender : Nat
  timestamp : Nat
  callOk : TimeLock → Nat → Nat → List Nat → Bool

/-- Result of one contract method invocation. -/
structure Outcome where
  result : Except TimeLockError Unit
  state : TimeLock
  events : List Event
  calls : List OutCall

/-- `TimeLock::initialize`: sets the caller as owner, but only while the
owner slot still holds `Address::default()`. -/
def initOwner (env : Env) (s : TimeLock) : Outcome :=
  if s.owner ≠ 0 then
    ⟨Except.error TimeLockError.AlreadyInitialized, s, [], []⟩
  else
    ⟨Except.ok (), { s with owner := env.sender }, [], []⟩

/-- `TimeLock::owner`: pure read of the owner slot. -/
def ownerOf (s : TimeLock) : Nat := s.owner

/-- `TimeLock::deposit`: payable no-op. -/
def deposit (s : TimeLock) : Outcome :=
  ⟨Except.ok (), s, [], []⟩

/-- Minimum delay allowed for a transaction (`MIN_DELAY`). -/
def MIN_DELAY : Nat := 10

/-- Maximum delay allowed for a transaction (`MAX_DELAY`). -/
def MAX_DELAY : Nat := 1000

/-- Grace period after the scheduled timestamp (`GRACE_PERIOD`). -/
def GRACE_PERIOD : Nat := 1000

/-- `TimeLock::queue`. -/
def queue (env : Env) (s : TimeLock) (d : Descriptor) : Outcome :=
  if s.owner ≠ env.sender then
    ⟨Except.error TimeLockError.NotOwnerError, s, [], []⟩
  else
    let tx_id := txIdOf env.keccak d
    if s.queued tx_id then
      ⟨Except.error (TimeLockError.AlreadyQueuedError tx_id), s, [], []⟩
    else if d.timestamp < env.timestamp + MIN_DELAY ∨
        d.timestamp > env.timestamp + MAX_DELAY then
      ⟨Except.error (TimeLockError.TimestampNotInRangeError env.timestamp
        d.timestamp), s, [], []⟩
    else
      ⟨Except.ok (), setQueued s tx_id true,
        [Event.Queue tx_id d.target d.value d.func d.data d.timestamp], []⟩

/-- The calldata built by `execute`: the first 4 bytes of the Keccak-256
hash of the function-signature string, followed by the raw payload. -/
def calldataOf (k : List Nat → List Nat) (d : Descriptor) : List Nat :=
  (k d.func).take 4 ++ d.data

/-- `TimeLock::execute`. -/
def execute (env : Env) (s : TimeLock) (d : Descriptor) : Outcome :=
  if s.owner ≠ env.sender then
    ⟨Except.error TimeLockError.NotOwnerError, s, [], []⟩
  else
    let tx_id := txIdOf env.keccak d
    if ¬ s.queued tx_id then
      ⟨Except.error (TimeLockError.NotQueuedError tx_id), s, [], []⟩
    else if env.timestamp < d.timestamp then
      ⟨Except.error (TimeLockError.TimestampNotPassedError env.timestamp
        d.timestamp), s, [], []⟩
    else if env.timestamp > d.timestamp + GRACE_PERIOD then
      ⟨Except.error (TimeLockError.TimestampExpiredError env.timestamp
        (d.timestamp + GRACE_PERIOD)), s, [], []⟩
    else
      let s' := setQueued s tx_id false
      let calldata := calldataOf env.keccak d
      if env.callOk s' d.target d.value calldata then
        ⟨Except.ok (), s',
          [Event.Execute tx_id d.target d.value d.func d.data d.timestamp],
          [⟨d.target, d.value, calldata⟩]⟩
      else
        ⟨Except.error TimeLockError.TxFailedError, s', [],
          [⟨d.target, d.value, calldata⟩]⟩

/-- `TimeLock::executeV2`: dispatches a call to `target` with value `1`
and empty calldata, ignores its result, and returns `Ok(())`. -/
def executeV2 (_env : Env) (s : TimeLock) (target : Nat) : Outcome :=
  ⟨Except.ok (), s, [], [⟨target, 1, []⟩]⟩

/-- `TimeLock::cancel`. -/
def cancel (env : Env) (s : TimeLock) (d : Descriptor) : Outcome :=
  if s.owner ≠ env.sender then
    ⟨Except.error TimeLockError.NotOwnerError, s, [], []⟩
  else
    let tx_id := txIdOf env.keccak d
    if ¬ s.queued tx_id then
      ⟨Except.error (TimeLockError.NotQueuedError tx_id), s, [], []⟩
    else
      ⟨Except.ok (), setQueued s tx_id false, [Event.Cancel tx_id], []⟩

/-! ### Injectivity of the ABI encoding -/

/-- `padBE` always produces exactly `w` bytes. -/
theorem length_padBE (w n : Nat) : (padBE w n).length = w := by
  induction w generalizing n with
  | zero => rfl
  | succ w ih => simp [padBE, ih]

/-- `pad32` always produces exactly 32 bytes. -/
theorem length_pad32 (n : Nat) : (pad32 n).length = 32 :=
  length_padBE 32 n

/-- Big-endian base-256 evaluation, inverse to `padBE`. -/
def unBE (l : List Nat) : Nat := l.foldl (fun a b => a * 256 + b) 0

theorem unBE_append_singleton (l : List Nat) (b : Nat) :
    unBE (l ++ [b]) = unBE l * 256 + b := by
  simp [unBE, List.foldl_append]

theorem unBE_padBE (w n : Nat) : unBE (padBE w n) = n % 256 ^ w := by
  induction w generalizing n with
  | zero => simp [padBE, unBE, Nat.mod_one]
  | succ w ih =>
    rw [padBE, unBE_append_singleton, ih]
    have h : (256 : Nat) ^ (w + 1) = 256 * 256 ^ w := by ring
    rw [h, Nat.mod_mul]
    ring

/-- `pad32` is injective on values below `2 ^ 256`. -/
theorem pad32_inj {n m : Nat} (hn : n < 2 ^ 256) (hm : m < 2 ^ 256)
    (h : pad32 n = pad32 m) : n = m := by
  have e : (256 : Nat) ^ 32 = 2 ^ 256 := by norm_num
  have h1 := unBE_padBE 32 n
  have h2 := unBE_padBE 32 m
  rw [show padBE 32 n = pad32 n from rfl, h] at h1
  rw [show padBE 32 m = pad32 m from rfl] at h2
  rw [h1] at h2
  rwa [e, Nat.mod_eq_of_lt hn, Nat.mod_eq_of_lt hm] at h2

/-- Peeling one 32-byte word off the front of an encoding equality. -/
theorem peel32 {a b : Nat} {x y : List Nat}
    (h : pad32 a ++ x = pad32 b ++ y) : pad32 a = pad32 b ∧ x = y :=
  List.append_inj h (by rw [length_pad32, length_pad32])

/-- The padding tail of `encBytes` is shorter than 32 bytes. -/
theorem encBytes_pad_lt (b : List Nat) : (32 - b.length % 32) % 32 < 32 :=
  Nat.mod_lt _ (by norm_num)

/-- Length of the ABI encoding of a `bytes` value. -/
theorem length_encBytes (b : List Nat) :
    (encBytes b).length = 32 + (b.length + (32 - b.length % 32) % 32) := by
  simp [encBytes, length_pad32]

/-- `encBytes` is injective on byte strings of representable length. -/
theorem encBytes_inj {b1 b2 : List Nat} (h1 : b1.length < 2 ^ 256)
    (h2 : b2.length < 2 ^ 256) (h : encBytes b1 = encBytes b2) : b1 = b2 := by
  unfold encBytes at h
  obtain ⟨hlen, htail⟩ := peel32 h
  have hl : b1.length = b2.length := pad32_inj h1 h2 hlen
  exact (List.append_inj htail hl).1

/-- Full injectivity of `abi_encode_sequence` on valid parameters: equal
encodings force equal fields. -/
theorem abi_encode_sequence_inj {d1 d2 : Descriptor}
    (v1 : ValidDescriptor d1) (v2 : ValidDescriptor d2)
    (h : abi_encode_sequence d1.target d1.value d1.func d1.data d1.timestamp
       = abi_encode_sequence d2.target d2.value d2.func d2.data d2.timestamp) :
    d1 = d2 := by
  obtain ⟨ht1, hv1, hts1, hf1, hd1⟩ := v1
  obtain ⟨ht2, hv2, hts2, hf2, hd2⟩ := v2
  have hlt : (2 : Nat) ^ 160 < 2 ^ 256 := by norm_num
  unfold abi_encode_sequence at h
  obtain ⟨htgt, h⟩ := peel32 h
  obtain ⟨hval, h⟩ := peel32 h
  obtain ⟨-, h⟩ := peel32 h
  obtain ⟨hoff, h⟩ := peel32 h
  obtain ⟨htime, h⟩ := peel32 h
  have efbound1 : 160 + (encBytes d1.func).length < 2 ^ 256 := by
    have := encBytes_pad_lt d1.func
    rw [length_encBytes]
    have : d1.func.length < 2 ^ 255 := hf1
    have e : (2 : Nat) ^ 256 = 2 ^ 255 + 2 ^ 255 := by ring
    omega
  have efbound2 : 160 + (encBytes d2.func).length < 2 ^ 256 := by
    have := encBytes_pad_lt d2.func
    rw [length_encBytes]
    have : d2.func.length < 2 ^ 255 := hf2
    have e : (2 : Nat) ^ 256 = 2 ^ 255 + 2 ^ 255 := by ring
    omega
  have hofflen : (encBytes d1.func).length = (encBytes d2.func).length := by
    have := pad32_inj efbound1 efbound2 hoff
    omega
  obtain ⟨hfunc, hdata⟩ := List.append_inj h hofflen
  have e1 : d1.target = d2.target :=
    pad32_inj (lt_trans ht1 hlt) (lt_trans ht2 hlt) htgt
  have e2 : d1.value = d2.value := pad32_inj hv1 hv2 hval
  have e3 : d1.timestamp = d2.timestamp := pad32_inj hts1 hts2 htime
  have hfb : (2 : Nat) ^ 255 < 2 ^ 256 := by norm_num
  have e4 : d1.func = d2.func :=
    encBytes_inj (lt_trans hf1 hfb) (lt_trans hf2 hfb) hfunc
  have e5 : d1.data = d2.data :=
    encBytes_inj (lt_trans hd1 hfb) (lt_trans hd2 hfb) hdata
  cases d1; cases d2
  simp_all

/-! ### Helper lemmas about the operations -/

/-- A point update of `queued` leaves the owner slot alone. -/
theorem setQueued_owner (s : TimeLock) (id : List Nat) (b : Bool) :
    (setQueued s id b).owner = s.owner := rfl

/-- `queue` never writes the owner slot. -/
theorem queue_preserves_owner (env : Env) (s : TimeLock) (d : Descriptor) :
    (queue env s d).state.owner = s.owner := by
  unfold queue
  dsimp only
  repeat' split
  all_goals rfl

/-- `execute` never writes the owner slot. -/
theorem execute_preserves_owner (env : Env) (s : TimeLock) (d : Descriptor) :
    (execute env s d).state.owner = s.owner := by
  unfold execute
  dsimp only
  repeat' split
  all_goals rfl

/-- `cancel` never writes the owner slot. -/
theorem cancel_preserves_owner (env : Env) (s : TimeLock) (d : Descriptor) :
    (cancel env s d).state.owner = s.owner := by
  unfold cancel
  dsimp only
  repeat' split
  all_goals rfl

/-! ### Concrete instances used by the witnesses -/

/-- A concrete stand-in digest function for witnesses. -/
def kW : List Nat → List Nat := fun l => [l.length % 256]

/-- Witness environment: caller `1`, clock `1000`, calls succeed. -/
def envW : Env := ⟨kW, 1, 1000, fun _ _ _ _ => true⟩

/-- Witness environment whose outbound calls all fail. -/
def envWFail : Env := ⟨kW, 1, 1000, fun _ _ _ _ => false⟩

/-- Witness environment with a caller distinct from the stored owner. -/
def envWStranger : Env := ⟨kW, 2, 1000, fun _ _ _ _ => true⟩

/-- Witness state: owner `1`, every id queued. -/
def sWAll : TimeLock := ⟨1, fun _ => true⟩

/-- Witness state: owner `1`, nothing queued. -/
def sWNone : TimeLock := ⟨1, fun _ => false⟩

/-- Witness state: owner unset. -/
def sWFresh : TimeLock := ⟨0, fun _ => false⟩

/-- Witness descriptor scheduled at time `1000`. -/
def dW : Descriptor := ⟨5, 0, [102, 40, 41], [1, 2], 1000⟩

/-- Witness descriptor scheduled at time `1010`. -/
def dW2 : Descriptor := ⟨5, 0, [102, 40, 41], [1, 2], 1010⟩

/-! ### Claim theorems -/

/-- Claim C1: `executeV2` dispatches exactly one outbound call, to its
`target` argument, carrying the hardcoded value `1` and empty calldata;
it succeeds for every environment (any caller, owner or not, at any clock
value), leaves the storage state (owner slot and queued mapping) exactly
as it was, and emits no event. -/
theorem executeV2_unguarded_call (env : Env) (s : TimeLock) (target : Nat) :
    executeV2 env s target = ⟨Except.ok (), s, [], [⟨target, 1, []⟩]⟩ := rfl

/-- Claim C10: `executeV2` returns `Ok(())` for every target and every
environment, in particular for every outcome of the outbound call, since
the call's result is discarded. -/
theorem executeV2_always_ok (env : Env) (s : TimeLock) (target : Nat) :
    (executeV2 env s target).result = Except.ok () := rfl

/-- Claim C7: when the caller is not the stored owner, each of `queue`,
`execute` and `cancel` fails with `NotOwnerError` before any other check
(for every descriptor and state, regardless of queue or timing status),
leaving the owner slot and the whole queued mapping unchanged and
emitting no event and no call. -/
theorem nonowner_always_rejected (env : Env) (s : TimeLock) (d : Descriptor)
    (h : s.owner ≠ env.sender) :
    queue env s d = ⟨Except.error TimeLockError.NotOwnerError, s, [], []⟩ ∧
    execute env s d = ⟨Except.error TimeLockError.NotOwnerError, s, [], []⟩ ∧
    cancel env s d = ⟨Except.error TimeLockError.NotOwnerError, s, [], []⟩ := by
  refine ⟨?_, ?_, ?_⟩ <;> simp [queue, execute, cancel, h]

/-- Witness for claim C7 at a concrete non-owner caller. -/
theorem nonowner_always_rejected_witness :
    queue envWStranger sWAll dW =
      ⟨Except.error TimeLockError.NotOwnerError, sWAll, [], []⟩ ∧
    execute envWStranger sWAll dW =
      ⟨Except.error TimeLockError.NotOwnerError, sWAll, [], []⟩ ∧
    cancel envWStranger sWAll dW =
      ⟨Except.error TimeLockError.NotOwnerError, sWAll, [], []⟩ :=
  nonowner_always_rejected envWStranger sWAll dW (by decide)

/-- Claim C6: `initialize` succeeds exactly while the owner slot holds the
sentinel `0` (`Address::default()`), in which case it records the caller
as owner; once a caller distinct from the sentinel owns the contract,
every later `initialize` fails with `AlreadyInitialized` regardless of
who calls, and no other operation (`queue`, `execute`, `cancel`,
`executeV2`, `deposit`) ever writes the owner slot. -/
theorem initOwner_one_shot (env : Env) (s : TimeLock) (d : Descriptor)
    (t : Nat) :
    (s.owner = 0 →
      initOwner env s =
        ⟨Except.ok (), { s with owner := env.sender }, [], []⟩) ∧
    (s.owner ≠ 0 →
      initOwner env s =
        ⟨Except.error TimeLockError.AlreadyInitialized, s, [], []⟩) ∧
    (s.owner = 0 → env.sender ≠ 0 →
      ∀ env2 : Env, (initOwner env2 ((initOwner env s).state)).result =
        Except.error TimeLockError.AlreadyInitialized) ∧
    (queue env s d).state.owner = s.owner ∧
    (execute env s d).state.owner = s.owner ∧
    (cancel env s d).state.owner = s.owner ∧
    (executeV2 env s t).state.owner = s.owner ∧
    (deposit s).state.owner = s.owner := by
  refine ⟨?_, ?_, ?_, queue_preserves_owner env s d,
    execute_preserves_owner env s d, cancel_preserves_owner env s d,
    rfl, rfl⟩
  · intro h0
    simp [initOwner, h0]
  · intro h0
    simp [initOwner, h0]
  · intro h0 hs env2
    simp [initOwner, h0, hs]

/-- Witness for claim C6 at a fresh state and caller `1`. -/
theorem initOwner_one_shot_witness :
    (sWFresh.owner = 0 →
      initOwner envW sWFresh =
        ⟨Except.ok (), { sWFresh with owner := envW.sender }, [], []⟩) ∧
    (sWFresh.owner ≠ 0 →
      initOwner envW sWFresh =
        ⟨Except.error TimeLockError.AlreadyInitialized, sWFresh, [], []⟩) ∧
    (sWFresh.owner = 0 → envW.sender ≠ 0 →
      ∀ env2 : Env, (initOwner env2 ((initOwner envW sWFresh).state)).result =
        Except.error TimeLockError.AlreadyInitialized) ∧
    (queue envW sWFresh dW).state.owner = sWFresh.owner ∧
    (execute envW sWFresh dW).state.owner = sWFresh.owner ∧
    (cancel envW sWFresh dW).state.owner = sWFresh.owner ∧
    (executeV2 envW sWFresh 7).state.owner = sWFresh.owner ∧
    (deposit sWFresh).state.owner = sWFresh.owner :=
  initOwner_one_shot envW sWFresh dW 7

/-- Claim C4: with an owner caller, an id not yet queued, and the `u64`
clock bound under which `Nat` arithmetic coincides with the contract's
`U256` arithmetic, `queue` succeeds exactly when
`now + MIN_DELAY ≤ timestamp ≤ now + MAX_DELAY` (both bounds inclusive,
with `MIN_DELAY = 10` and `MAX_DELAY = 1000`); outside that window it
fails with `TimestampNotInRangeError` carrying `now` and `timestamp`,
leaving the state untouched and emitting nothing. -/
theorem queue_window_iff (env : Env) (s : TimeLock) (d : Descriptor)
    (hown : s.owner = env.sender)
    (hq : s.queued (txIdOf env.keccak d) = false)
    (_hnow : env.timestamp < 2 ^ 64) :
    ((queue env s d).result = Except.ok () ↔
      env.timestamp + MIN_DELAY ≤ d.timestamp ∧
        d.timestamp ≤ env.timestamp + MAX_DELAY) ∧
    (¬ (env.timestamp + MIN_DELAY ≤ d.timestamp ∧
        d.timestamp ≤ env.timestamp + MAX_DELAY) →
      queue env s d =
        ⟨Except.error (TimeLockError.TimestampNotInRangeError env.timestamp
          d.timestamp), s, [], []⟩) ∧
    MIN_DELAY = 10 ∧ MAX_DELAY = 1000 := by
  refine ⟨?_, ?_, rfl, rfl⟩
  · by_cases hc : d.timestamp < env.timestamp + MIN_DELAY ∨
      d.timestamp > env.timestamp + MAX_DELAY
    · simp only [queue, hown, ne_eq, not_true_eq_false, if_false, hq,
        Bool.false_eq_true, if_pos hc]
      constructor
      · intro habs
        exact absurd habs (by simp)
      · intro hb
        omega
    · simp only [queue, hown, ne_eq, not_true_eq_false, if_false, hq,
        Bool.false_eq_true, if_neg hc]
      constructor
      · intro _
        omega
      · intro _
        trivial
  · intro hb
    have hc : d.timestamp < env.timestamp + MIN_DELAY ∨
        d.timestamp > env.timestamp + MAX_DELAY := by omega
    simp only [queue, hown, ne_eq, not_true_eq_false, if_false, hq,
      Bool.false_eq_true, if_pos hc]

/-- Witness for claim C4 at concrete inputs. -/
theorem queue_window_iff_witness :
    ((queue envW sWNone dW2).result = Except.ok () ↔
      envW.timestamp + MIN_DELAY ≤ dW2.timestamp ∧
        dW2.timestamp ≤ envW.timestamp + MAX_DELAY) ∧
    (¬ (envW.timestamp + MIN_DELAY ≤ dW2.timestamp ∧
        dW2.timestamp ≤ envW.timestamp + MAX_DELAY) →
      queue envW sWNone dW2 =
        ⟨Except.error (TimeLockError.TimestampNotInRangeError envW.timestamp
          dW2.timestamp), sWNone, [], []⟩) ∧
    MIN_DELAY = 10 ∧ MAX_DELAY = 1000 :=
  queue_window_iff envW sWNone dW2 rfl rfl (by decide)

/-- When the authorization, queued-state and timing checks all pass,
`execute` reduces to the dispatch of the outbound call, evaluated against
the state in which the queued flag of the id has already been cleared. -/
theorem execute_dispatch_eq (env : Env) (s : TimeLock) (d : Descriptor)
    (hown : s.owner = env.sender)
    (hq : s.queued (txIdOf env.keccak d) = true)
    (h1 : d.timestamp ≤ env.timestamp)
    (h2 : env.timestamp ≤ d.timestamp + GRACE_PERIOD) :
    execute env s d =
      if env.callOk (setQueued s (txIdOf env.keccak d) false) d.target
          d.value (calldataOf env.keccak d) then
        ⟨Except.ok (), setQueued s (txIdOf env.keccak d) false,
          [Event.Execute (txIdOf env.keccak d) d.target d.value d.func
            d.data d.timestamp],
          [⟨d.target, d.value, calldataOf env.keccak d⟩]⟩
      else
        ⟨Except.error TimeLockError.TxFailedError,
          setQueued s (txIdOf env.keccak d) false, [],
          [⟨d.target, d.value, calldataOf env.keccak d⟩]⟩ := by
  have hnp : ¬ (env.timestamp < d.timestamp) := by omega
  have hne : ¬ (env.timestamp > d.timestamp + GRACE_PERIOD) := by omega
  simp only [execute, hown, ne_eq, not_true_eq_false, if_false, hq,
    Bool.not_true, not_true, if_neg hnp, if_neg hne]

/-- After the queued flag of an id is cleared, an `execute` of the same
descriptor by the owner fails with `NotQueuedError` of that id. -/
theorem execute_on_cleared_notqueued (env2 env : Env) (s : TimeLock)
    (d : Descriptor) (hk : env2.keccak = env.keccak)
    (hsend : env2.sender = s.owner) :
    (execute env2 (setQueued s (txIdOf env.keccak d) false) d).result =
      Except.error (TimeLockError.NotQueuedError (txIdOf env.keccak d)) := by
  have howner : ¬ ((setQueued s (txIdOf env.keccak d) false).owner ≠
      env2.sender) := by
    simp [setQueued, hsend]
  have hlookup : (setQueued s (txIdOf env.keccak d) false).queued
      (txIdOf env.keccak d) = false := by
    simp [setQueued]
  simp [execute, howner, hlookup, hk]

/-- After the queued flag of an id is cleared, no `execute` of the same
descriptor can succeed, whoever calls it. -/
theorem execute_on_cleared_never_ok (env2 env : Env) (s : TimeLock)
    (d : Descriptor) (hk : env2.keccak = env.keccak) :
    (execute env2 (setQueued s (txIdOf env.keccak d) false) d).result ≠
      Except.ok () := by
  by_cases hsend : env2.sender = s.owner
  · rw [execute_on_cleared_notqueued env2 env s d hk hsend]
    intro habs
    exact Except.noConfusion habs
  · have howner : (setQueued s (txIdOf env.keccak d) false).owner ≠
        env2.sender := by
      simp [setQueued]
      intro habs
      exact hsend habs.symm
    simp [execute, howner]

/-- Claim C5: for an owner caller and a queued id (with the `u64` clock
bound and `U256`-representable deadline making `Nat` arithmetic exact),
`execute` fails with `TimestampNotPassedError` when `now < timestamp`,
fails with `TimestampExpiredError` when
`now > timestamp + GRACE_PERIOD` (`GRACE_PERIOD = 1000`), and at every
`now` with `timestamp ≤ now ≤ timestamp + GRACE_PERIOD`, both boundary
instants included, it dispatches the outbound call and succeeds whenever
the call succeeds. -/
theorem execute_timing_window (env : Env) (s : TimeLock) (d : Descriptor)
    (hown : s.owner = env.sender)
    (hq : s.queued (txIdOf env.keccak d) = true)
    (_hnow : env.timestamp < 2 ^ 64)
    (_hts : d.timestamp + GRACE_PERIOD < 2 ^ 256) :
    (env.timestamp < d.timestamp →
      execute env s d =
        ⟨Except.error (TimeLockError.TimestampNotPassedError env.timestamp
          d.timestamp), s, [], []⟩) ∧
    (env.timestamp > d.timestamp + GRACE_PERIOD →
      execute env s d =
        ⟨Except.error (TimeLockError.TimestampExpiredError env.timestamp
          (d.timestamp + GRACE_PERIOD)), s, [], []⟩) ∧
    (d.timestamp ≤ env.timestamp → env.timestamp ≤ d.timestamp + GRACE_PERIOD →
      (execute env s d).calls =
        [⟨d.target, d.value, calldataOf env.keccak d⟩] ∧
      (env.callOk (setQueued s (txIdOf env.keccak d) false) d.target
          d.value (calldataOf env.keccak d) = true →
        execute env s d =
          ⟨Except.ok (), setQueued s (txIdOf env.keccak d) false,
            [Event.Execute (txIdOf env.keccak d) d.target d.value d.func
              d.data d.timestamp],
            [⟨d.target, d.value, calldataOf env.keccak d⟩]⟩)) ∧
    GRACE_PERIOD = 1000 := by
  refine ⟨?_, ?_, ?_, rfl⟩
  · intro h
    simp only [execute, hown, ne_eq, not_true_eq_false, if_false, hq,
      Bool.not_true, not_true, if_pos h]
  · intro h
    have hnp : ¬ (env.timestamp < d.timestamp) := by omega
    simp only [execute, hown, ne_eq, not_true_eq_false, if_false, hq,
      Bool.not_true, not_true, if_neg hnp, if_pos h]
  · intro h1 h2
    rw [execute_dispatch_eq env s d hown hq h1 h2]
    constructor
    · split
      · rfl
      · rfl
    · intro hc
      rw [if_pos hc]

/-- Witness for claim C5 at concrete inputs. -/
theorem execute_timing_window_witness :
    (envW.timestamp < dW.timestamp →
      execute envW sWAll dW =
        ⟨Except.error (TimeLockError.TimestampNotPassedError envW.timestamp
          dW.timestamp), sWAll, [], []⟩) ∧
    (envW.timestamp > dW.timestamp + GRACE_PERIOD →
      execute envW sWAll dW =
        ⟨Except.error (TimeLockError.TimestampExpiredError envW.timestamp
          (dW.timestamp + GRACE_PERIOD)), sWAll, [], []⟩) ∧
    (dW.timestamp ≤ envW.timestamp →
      envW.timestamp ≤ dW.timestamp + GRACE_PERIOD →
      (execute envW sWAll dW).calls =
        [⟨dW.target, dW.value, calldataOf envW.keccak dW⟩] ∧
      (envW.callOk (setQueued sWAll (txIdOf envW.keccak dW) false) dW.target
          dW.value (calldataOf envW.keccak dW) = true →
        execute envW sWAll dW =
          ⟨Except.ok (), setQueued sWAll (txIdOf envW.keccak dW) false,
            [Event.Execute (txIdOf envW.keccak dW) dW.target dW.value dW.func
              dW.data dW.timestamp],
            [⟨dW.target, dW.value, calldataOf envW.keccak dW⟩]⟩)) ∧
    GRACE_PERIOD = 1000 :=
  execute_timing_window envW sWAll dW rfl rfl (by decide) (by decide)

/-- Claim C2: when the authorization, queued-state and timing checks pass,
`execute` clears the queued flag of the id strictly before dispatching the
outbound call: the storage state it leaves behind is exactly the cleared
state, the call's success is evaluated against that already-cleared state
(this is the dispatch-time state, since nothing is written after the
dispatch), and a re-entrant `execute` of the same descriptor against that
state observes the flag `false` and fails — with `NotQueuedError` when the
re-entrant caller is the owner, and never with success for any caller. -/
theorem execute_clears_flag_before_dispatch (env : Env) (s : TimeLock)
    (d : Descriptor) (hown : s.owner = env.sender)
    (hq : s.queued (txIdOf env.keccak d) = true)
    (h1 : d.timestamp ≤ env.timestamp)
    (h2 : env.timestamp ≤ d.timestamp + GRACE_PERIOD) :
    (execute env s d).state = setQueued s (txIdOf env.keccak d) false ∧
    (execute env s d).state.queued (txIdOf env.keccak d) = false ∧
    (execute env s d).result =
      (if env.callOk ((execute env s d).state) d.target d.value
          (calldataOf env.keccak d) then Except.ok ()
        else Except.error TimeLockError.TxFailedError) ∧
    (∀ env2 : Env, env2.keccak = env.keccak →
      (env2.sender = s.owner →
        (execute env2 ((execute env s d).state) d).result =
          Except.error (TimeLockError.NotQueuedError (txIdOf env.keccak d))) ∧
      (execute env2 ((execute env s d).state) d).result ≠ Except.ok ()) := by
  have hstate : (execute env s d).state =
      setQueued s (txIdOf env.keccak d) false := by
    rw [execute_dispatch_eq env s d hown hq h1 h2]
    split
    · rfl
    · rfl
  refine ⟨hstate, ?_, ?_, ?_⟩
  · rw [hstate]
    simp [setQueued]
  · rw [hstate, execute_dispatch_eq env s d hown hq h1 h2]
    split
    · rfl
    · rfl
  · intro env2 hk
    rw [hstate]
    exact ⟨fun hsend => execute_on_cleared_notqueued env2 env s d hk hsend,
      execute_on_cleared_never_ok env2 env s d hk⟩

/-- Witness for claim C2 at concrete inputs. -/
theorem execute_clears_flag_witness :
    (execute envW sWAll dW).state = setQueued sWAll (txIdOf envW.keccak dW) false ∧
    (execute envW sWAll dW).state.queued (txIdOf envW.keccak dW) = false ∧
    (execute envW sWAll dW).result =
      (if envW.callOk ((execute envW sWAll dW).state) dW.target dW.value
          (calldataOf envW.keccak dW) then Except.ok ()
        else Except.error TimeLockError.TxFailedError) ∧
    (∀ env2 : Env, env2.keccak = envW.keccak →
      (env2.sender = sWAll.owner →
        (execute env2 ((execute envW sWAll dW).state) dW).result =
          Except.error (TimeLockError.NotQueuedError (txIdOf envW.keccak dW))) ∧
      (execute env2 ((execute envW sWAll dW).state) dW).result ≠
        Except.ok ()) :=
  execute_clears_flag_before_dispatch envW sWAll dW rfl rfl
    (by decide) (by decide)

/-- Claim C3: when the checks pass but the outbound call fails, `execute`
returns `TxFailedError`, the queued flag of the id is left `false` (it is
not restored), and a subsequent owner `execute` of the same descriptor
from the resulting state fails with `NotQueuedError`. -/
theorem execute_call_failure_no_restore (env : Env) (s : TimeLock)
    (d : Descriptor) (hown : s.owner = env.sender)
    (hq : s.queued (txIdOf env.keccak d) = true)
    (h1 : d.timestamp ≤ env.timestamp)
    (h2 : env.timestamp ≤ d.timestamp + GRACE_PERIOD)
    (hfail : env.callOk (setQueued s (txIdOf env.keccak d) false) d.target
      d.value (calldataOf env.keccak d) = false) :
    execute env s d =
      ⟨Except.error TimeLockError.TxFailedError,
        setQueued s (txIdOf env.keccak d) false, [],
        [⟨d.target, d.value, calldataOf env.keccak d⟩]⟩ ∧
    (execute env s d).state.queued (txIdOf env.keccak d) = false ∧
    (∀ env2 : Env, env2.keccak = env.keccak → env2.sender = s.owner →
      (execute env2 ((execute env s d).state) d).result =
        Except.error (TimeLockError.NotQueuedError (txIdOf env.keccak d))) := by
  have heq : execute env s d =
      ⟨Except.error TimeLockError.TxFailedError,
        setQueued s (txIdOf env.keccak d) false, [],
        [⟨d.target, d.value, calldataOf env.keccak d⟩]⟩ := by
    rw [execute_dispatch_eq env s d hown hq h1 h2, if_neg]
    rw [hfail]
    intro habs
    exact Bool.noConfusion habs
  refine ⟨heq, ?_, ?_⟩
  · rw [heq]
    simp [setQueued]
  · intro env2 hk hsend
    rw [heq]
    exact execute_on_cleared_notqueued env2 env s d hk hsend

/-- Witness for claim C3 at concrete inputs (all outbound calls fail). -/
theorem execute_call_failure_witness :
    execute envWFail sWAll dW =
      ⟨Except.error TimeLockError.TxFailedError,
        setQueued sWAll (txIdOf envWFail.keccak dW) false, [],
        [⟨dW.target, dW.value, calldataOf envWFail.keccak dW⟩]⟩ ∧
    (execute envWFail sWAll dW).state.queued (txIdOf envWFail.keccak dW) =
      false ∧
    (∀ env2 : Env, env2.keccak = envWFail.keccak →
      env2.sender = sWAll.owner →
      (execute env2 ((execute envWFail sWAll dW).state) dW).result =
        Except.error (TimeLockError.NotQueuedError (txIdOf envWFail.keccak dW))) :=
  execute_call_failure_no_restore envWFail sWAll dW rfl rfl
    (by decide) (by decide) rfl

/-- Claim C8: for an owner caller, `cancel` of a queued id succeeds at
every clock value (the definition consults no timing data: `env.timestamp`
is universally quantified and absent from the result), clears the id's
queued flag and emits exactly `Cancel(id)`; on a non-queued id it fails
with `NotQueuedError`; and after a successful `cancel`, an owner `execute`
of the same descriptor fails with `NotQueuedError`. -/
theorem cancel_spec (env : Env) (s : TimeLock) (d : Descriptor)
    (hown : s.owner = env.sender) :
    (s.queued (txIdOf env.keccak d) = true →
      cancel env s d =
        ⟨Except.ok (), setQueued s (txIdOf env.keccak d) false,
          [Event.Cancel (txIdOf env.keccak d)], []⟩ ∧
      (cancel env s d).state.queued (txIdOf env.keccak d) = false ∧
      (∀ env2 : Env, env2.keccak = env.keccak → env2.sender = s.owner →
        (execute env2 ((cancel env s d).state) d).result =
          Except.error (TimeLockError.NotQueuedError (txIdOf env.keccak d)))) ∧
    (s.queued (txIdOf env.keccak d) = false →
      cancel env s d =
        ⟨Except.error (TimeLockError.NotQueuedError (txIdOf env.keccak d)),
          s, [], []⟩) := by
  constructor
  · intro hq
    have heq : cancel env s d =
        ⟨Except.ok (), setQueued s (txIdOf env.keccak d) false,
          [Event.Cancel (txIdOf env.keccak d)], []⟩ := by
      simp only [cancel, hown, ne_eq, not_true_eq_false, if_false, hq,
        Bool.not_true, not_true]
    refine ⟨heq, ?_, ?_⟩
    · rw [heq]
      simp [setQueued]
    · intro env2 hk hsend
      rw [heq]
      exact execute_on_cleared_notqueued env2 env s d hk hsend
  · intro hq
    simp only [cancel, hown, ne_eq, not_true_eq_false, if_false, hq,
      Bool.false_eq_true, not_false_eq_true, if_pos]

/-- Witness for claim C8 at concrete inputs. -/
theorem cancel_spec_witness :
    (sWAll.queued (txIdOf envW.keccak dW) = true →
      cancel envW sWAll dW =
        ⟨Except.ok (), setQueued sWAll (txIdOf envW.keccak dW) false,
          [Event.Cancel (txIdOf envW.keccak dW)], []⟩ ∧
      (cancel envW sWAll dW).state.queued (txIdOf envW.keccak dW) = false ∧
      (∀ env2 : Env, env2.keccak = envW.keccak → env2.sender = sWAll.owner →
        (execute env2 ((cancel envW sWAll dW).state) dW).result =
          Except.error (TimeLockError.NotQueuedError (txIdOf envW.keccak dW)))) ∧
    (sWAll.queued (txIdOf envW.keccak dW) = false →
      cancel envW sWAll dW =
        ⟨Except.error (TimeLockError.NotQueuedError (txIdOf envW.keccak dW)),
          sWAll, [], []⟩) :=
  cancel_spec envW sWAll dW rfl

/-- Claim C9: `get_tx_id` is a pure function of its five parameters:
descriptors agreeing on `target`, `value`, `func`, `data` and `timestamp`
always receive the same id, and — for any digest function that is
injective, the collision-resistance assumption the spec itself makes
about Keccak-256 — descriptors differing in any one of the five fields
receive different ids, because the ABI encoding fed to the digest is
injective on valid field values (`abi_encode_sequence_inj`). -/
theorem get_tx_id_deterministic_and_sensitive :
    (∀ (k : List Nat → List Nat) (d1 d2 : Descriptor),
      d1.target = d2.target → d1.value = d2.value → d1.func = d2.func →
      d1.data = d2.data → d1.timestamp = d2.timestamp →
      txIdOf k d1 = txIdOf k d2) ∧
    (∀ k : List Nat → List Nat, Function.Injective k →
      ∀ d1 d2 : Descriptor, ValidDescriptor d1 → ValidDescriptor d2 →
      (d1.target ≠ d2.target ∨ d1.value ≠ d2.value ∨ d1.func ≠ d2.func ∨
        d1.data ≠ d2.data ∨ d1.timestamp ≠ d2.timestamp) →
      txIdOf k d1 ≠ txIdOf k d2) := by
  constructor
  · intro k d1 d2 h1 h2 h3 h4 h5
    cases d1
    cases d2
    simp only at h1 h2 h3 h4 h5
    subst h1 h2 h3 h4 h5
    rfl
  · intro k hk d1 d2 v1 v2 hdiff heq
    have henc : abi_encode_sequence d1.target d1.value d1.func d1.data
        d1.timestamp =
        abi_encode_sequence d2.target d2.value d2.func d2.data
          d2.timestamp := hk heq
    have hd : d1 = d2 := abi_encode_sequence_inj v1 v2 henc
    rcases hdiff with h | h | h | h | h
    all_goals exact h (by rw [hd])

/-- Witness for claim C9: with the identity digest, the word-wise ABI
encodings of two descriptors differing only in their timestamp yield
different ids, and equal fields yield equal ids. -/
theorem get_tx_id_deterministic_and_sensitive_witness :
    txIdOf (fun l => l) dW = txIdOf (fun l => l) dW ∧
    txIdOf (fun l => l) dW ≠ txIdOf (fun l => l) dW2 :=
  ⟨get_tx_id_deterministic_and_sensitive.1 (fun l => l) dW dW
      rfl rfl rfl rfl rfl,
    get_tx_id_deterministic_and_sensitive.2 (fun l => l)
      (fun _ _ h => h) dW dW2 (by decide) (by decide)
      (Or.inr (Or.inr (Or.inr (Or.inr (by decide)))))⟩
